import Mathlib

/-!
Shallow embedding of the sustainability scoring, category classification,
score evaluation, recipe preparation and search/ranking pipeline of the
Green-RecSys-XAI repository (browser-based recipe research instrument).

Numbers are modelled as rationals (`ℚ`); the JavaScript sources only ever
combine values with `+ - * /`, `Math.min/max`, `Math.floor` and
`Math.round`, all of which are captured exactly on `ℚ`.  Optional numeric
record fields are `Option ℚ`; the JavaScript idiom `x || d` is modelled by
`jsOrNum`, which also sends the falsy value `0` to the default.  Strings
that may be absent (`undefined`) are modelled as `""`, which is exactly the
other falsy string value and is treated identically by every use site that
appears below.  `Math.random()`-driven code takes an explicit random stream
`rnd : Nat → Nat`.
-/

namespace GreenRec

/-- JavaScript `Math.round` on a non-negative rational: round half up. -/
def jsRound (x : ℚ) : ℤ := ⌊x + 1 / 2⌋

/-- The JavaScript idiom `x || d` on an optional numeric field: a missing
value and the falsy value `0` both fall back to the default `d`. -/
def jsOrNum (x : Option ℚ) (d : ℚ) : ℚ :=
  match x with
  | none => d
  | some v => if v = 0 then d else v

/-- `CONFIG.SUSTAINABILITY.CATEGORY_MODIFIERS` (config.js, first copy,
lines 36–45). -/
def CATEGORY_MODIFIERS : List (String × ℚ) :=
  [("saláta", 5), ("leves", 3), ("ital", 2), ("reggeli", 1),
   ("köret", 0), ("egyéb", 0), ("főétel", -2), ("desszert", -3)]

/-- `getCategoryModifier(category)`: `CONFIG.SUSTAINABILITY.CATEGORY_MODIFIERS[category] || 0`. -/
def getCategoryModifier (category : String) : ℚ :=
  jsOrNum (CATEGORY_MODIFIERS.lookup category) 0

/-- `CONFIG.SUSTAINABILITY.ENVIRONMENT_WEIGHT` (config.js, first copy). -/
def ENVIRONMENT_WEIGHT : ℚ := 6 / 10

/-- `CONFIG.SUSTAINABILITY.NUTRITION_WEIGHT` (config.js, first copy). -/
def NUTRITION_WEIGHT : ℚ := 4 / 10

/-- `calculateSustainabilityScore(envScore, nutriScore, category)` from the
three-argument scorer copy (src/unnamed/part_000 lines 197–224, identical
copy in src/unnamed/part_001 lines 17–44).  The `typeof` guard of the
source only rejects non-numeric arguments, which cannot arise here. -/
def calculateSustainabilityScore (envScore nutriScore : ℚ) (category : String) : ℚ :=
  let normalizedEnvScore := max 0 (min 100 envScore)
  let normalizedNutriScore := max 0 (min 100 nutriScore)
  let environmentalComponent := 100 - normalizedEnvScore
  let nutritionalComponent := normalizedNutriScore
  let weightedScore := environmentalComponent * ENVIRONMENT_WEIGHT +
    nutritionalComponent * NUTRITION_WEIGHT
  let categoryModifier := getCategoryModifier category
  let finalScore := max 0 (min 100 (weightedScore + categoryModifier))
  (jsRound (finalScore * 10) : ℚ) / 10

/-- Recipe record.  String fields use `""` for an absent (`undefined`)
value; numeric fields use `Option ℚ`. -/
structure Recipe where
  recipeid : Int
  name : String
  ingredients : String
  category : String
  env_score : Option ℚ
  nutri_score : Option ℚ
  sustainability_index : Option ℚ
  aggregated_rating : Option ℚ
  meal_score : Option ℚ
  categoryIcon : String
deriving Repr, DecidableEq

/-- `calculateSustainabilityScoreLegacy(recipe)` (sustainability.js, first
copy, lines 56–81; identical copy named `calculateSustainabilityScore` in
src/unnamed/part_000 lines 44–69). -/
def calculateSustainabilityScoreLegacy (recipe : Recipe) : ℚ :=
  let envScore := jsOrNum recipe.env_score 0
  let nutriScore := jsOrNum recipe.nutri_score 0
  if envScore ≤ 0 ∨ nutriScore ≤ 0 then 0
  else
    let environmentalComponent := max 0 (100 - envScore)
    let nutritionalComponent := min 100 nutriScore
    let sustainabilityScore := environmentalComponent * ENVIRONMENT_WEIGHT +
      nutritionalComponent * NUTRITION_WEIGHT
    let categoryModifier := getCategoryModifier recipe.category
    max 0 (min 100 (sustainabilityScore + categoryModifier))

/-- One entry of `CONFIG.SUSTAINABILITY.ECO_SCORE_RANGES`. -/
structure EcoRange where
  min : ℚ
  label : String
  icon : String
deriving Repr, DecidableEq

/-- `CONFIG.SUSTAINABILITY.ECO_SCORE_RANGES` (config.js, first copy,
lines 56–61). -/
def ECO_SCORE_RANGES : List EcoRange :=
  [⟨75, "Kiváló fenntartható választás", "🌟"⟩,
   ⟨60, "Jó fenntartható választás", "✅"⟩,
   ⟨40, "Közepes fenntarthatóságú választás", "⚖️"⟩,
   ⟨0, "Kevésbé fenntartható választás", "⚠️"⟩]

/-- Result shape of the score evaluator. -/
structure Evaluation where
  label : String
  icon : String
deriving Repr, DecidableEq

/-- `evaluateSustainabilityScore(score)` (sustainability.js, first copy,
lines 162–179): first range with `score >= range.min` wins, otherwise the
last range of the table is returned. -/
def evaluateSustainabilityScore (score : ℚ) : Evaluation :=
  match ECO_SCORE_RANGES.find? (fun range => decide (range.min ≤ score)) with
  | some range => ⟨range.label, range.icon⟩
  | none =>
    let last := ECO_SCORE_RANGES.getLastD ⟨0, "", ""⟩
    ⟨last.label, last.icon⟩

/-- JavaScript `toLowerCase` restricted to the character repertoire of this
repository: ASCII letters plus the Latin-1 uppercase range (`À`–`Þ`, minus
`×`) and the Hungarian double-acute letters `Ő`/`Ű`. -/
def jsToLowerChar (c : Char) : Char :=
  if 65 ≤ c.toNat ∧ c.toNat ≤ 90 then Char.ofNat (c.toNat + 32)
  else if 192 ≤ c.toNat ∧ c.toNat ≤ 222 ∧ c.toNat ≠ 215 then Char.ofNat (c.toNat + 32)
  else if c.toNat = 336 ∨ c.toNat = 368 then Char.ofNat (c.toNat + 1)
  else c

/-- JavaScript `String.prototype.toLowerCase`. -/
def jsToLower (s : String) : String := ⟨s.data.map jsToLowerChar⟩

/-- Remove leading and trailing whitespace (JavaScript `trim`). -/
def trimChars (cs : List Char) : List Char :=
  ((cs.dropWhile Char.isWhitespace).reverse.dropWhile Char.isWhitespace).reverse

/-- Helper of `splitChars`: accumulates the current piece in reverse. -/
def splitCharsGo (p : Char → Bool) : List Char → List Char → List (List Char)
  | [], acc => [acc.reverse]
  | c :: rest, acc =>
    if p c then acc.reverse :: splitCharsGo p rest []
    else splitCharsGo p rest (c :: acc)

/-- Split a character list at every separator character (the JavaScript
`split` with a single-character class; adjacent separators yield empty
pieces, which every use site below drops by a length filter). -/
def splitChars (p : Char → Bool) (cs : List Char) : List (List Char) :=
  splitCharsGo p cs []

/-- Substring test on character lists (JavaScript `text.includes(pattern)`). -/
def charsContains : List Char → List Char → Bool
  | [], pattern => pattern.isEmpty
  | c :: t, pattern => pattern.isPrefixOf (c :: t) || charsContains t pattern

/-- JavaScript `text.includes(pattern)`. -/
def strIncludes (text pattern : String) : Bool := charsContains text.data pattern.data

/-- `categoryKeywords` of `determineCategory` (src/unnamed/part_001
lines 82–90), in source order. -/
def categoryKeywords : List (String × List String) :=
  [("saláta", ["saláta", "uborka", "paradicsom", "fejes", "salát", "retek", "paprika"]),
   ("leves", ["leves", "húsleves", "zöldségleves", "krémleves", "borsóleves", "gulyás"]),
   ("főétel", ["hús", "csirke", "marha", "sertés", "hal", "schnitzel", "pörkölt", "ragu", "pizza"]),
   ("desszert", ["torta", "sütemény", "fagylalt", "pudding", "keksz", "csoki", "csokoládé", "krémes"]),
   ("ital", ["smoothie", "tea", "kávé", "juice", "lé", "ital", "shake"]),
   ("reggeli", ["reggeli", "tojás", "omlett", "pirítós", "müzli", "zabkása", "pancake"]),
   ("köret", ["köret", "rizs", "tészta", "burgonya", "krumpli", "nokedli", "galuska"])]

/-- Per-category keyword score: sum of the lengths of the keywords that
occur in the text (`score += keyword.length`). -/
def keywordScore (text : String) (keywords : List String) : Nat :=
  keywords.foldl (fun score keyword =>
    if strIncludes text keyword then score + keyword.length else score) 0

/-- One step of the `maxScore`/`detectedCategory` scan of `determineCategory`:
a category replaces the current best only with a strictly greater score. -/
def categoryStep (text : String) (acc : Nat × String) (entry : String × List String) :
    Nat × String :=
  let score := keywordScore text entry.2
  if acc.1 < score then (score, entry.1) else acc

/-- `determineCategory(ingredients, name)` (src/unnamed/part_001
lines 74–111). -/
def determineCategory (ingredients : String) (name : String) : String :=
  if ingredients = "" ∧ name = "" then "egyéb"
  else
    let text := jsToLower (ingredients ++ " " ++ name)
    (categoryKeywords.foldl (categoryStep text) (0, "egyéb")).2

/-- The fixed category set of the classifier. -/
def categorySet : List String :=
  ["saláta", "leves", "főétel", "desszert", "ital", "reggeli", "köret", "egyéb"]

/-- Maximum category keyword score of a text over the whole keyword table. -/
def maxKeywordScore (text : String) : Nat :=
  (categoryKeywords.map (fun entry => keywordScore text entry.2)).foldr max 0

/-! ### helpers.js -/

/-- The destructuring swap `[a[i], a[j]] = [a[j], a[i]]` of helpers.js. -/
def listSwap (l : List α) (i j : Nat) : List α :=
  match l[i]?, l[j]? with
  | some a, some b => (l.set i b).set j a
  | _, _ => l

/-- The Fisher–Yates loop of `shuffleArray` (helpers.js lines 75–84):
iteration at index `i+1` swaps position `i+1` with a random position
`j ≤ i+1`; `Math.floor(Math.random() * (i + 2))` is modelled by an explicit
random stream `rnd`, reduced into range with `% (i + 2)`. -/
def shuffleGo (rnd : Nat → Nat) : Nat → List α → List α
  | 0, l => l
  | i + 1, l => shuffleGo rnd i (listSwap l (i + 1) (rnd (i + 1) % (i + 2)))

/-- `shuffleArray(array)` (helpers.js lines 75–84): copies the array and
runs the Fisher–Yates loop from `length - 1` down to `1`. -/
def shuffleArray (array : List α) (rnd : Nat → Nat) : List α :=
  shuffleGo rnd (array.length - 1) array

/-- `levenshteinDistance(str1, str2)` (helpers.js): the dynamic-programming
matrix of the source realises exactly this recurrence (unit-cost
substitution, insertion and deletion). -/
def levChars : List Char → List Char → Nat
  | [], b => b.length
  | x :: a, [] => (x :: a).length
  | x :: a, y :: b =>
    if x = y then levChars a b
    else 1 + min (levChars a b) (min (levChars (x :: a) b) (levChars a (y :: b)))
termination_by a b => a.length + b.length
decreasing_by all_goals (simp [List.length_cons]; try omega)

/-- `calculateStringSimilarity(str1, str2)` (helpers.js): 0 for falsy
input, 1 for equal lowercased strings, otherwise
`(maxLength - distance) / maxLength`. -/
def calculateStringSimilarity (str1 str2 : String) : ℚ :=
  if str1 = "" ∨ str2 = "" then 0
  else
    let a := jsToLower str1
    let b := jsToLower str2
    if a = b then 1
    else
      let distance := levChars a.data b.data
      let maxLength := max a.length b.length
      if maxLength = 0 then 1 else ((maxLength : ℚ) - (distance : ℚ)) / (maxLength : ℚ)

/-! ### recipe-search.js, first copy (lines 1–614) -/

/-- `CONFIG.SEARCH.MAX_RESULTS` (config.js, first copy, line 17). -/
def MAX_RESULTS : Nat := 6

/-- `CONFIG.SEARCH.INCLUDE_TOP_SUSTAINABLE` (config.js, first copy, line 19). -/
def INCLUDE_TOP_SUSTAINABLE : Bool := true

/-- Character class `[\wÀ-ɏḀ-ỿ]` of the search query
cleanup regexes. -/
def isSearchWordChar (c : Char) : Bool :=
  c.isAlphanum || c = '_' ||
  (192 ≤ c.toNat && c.toNat ≤ 591) || (7680 ≤ c.toNat && c.toNat ≤ 7935)

/-- `preprocessSearchQuery(query)` (recipe-search.js lines 62–78):
lowercase, trim, replace characters outside the kept class by spaces,
split on `[,;+&\s]+`, trim, drop terms shorter than 2, deduplicate keeping
first occurrences.  Splitting on single separator characters and then
dropping the short pieces yields the same list as the run-collapsing
regex split of the source. -/
def preprocessSearchQuery (query : String) : List String :=
  if query = "" then []
  else
    let cleaned := (trimChars (jsToLower query).data).map
      (fun c => if isSearchWordChar c || c.isWhitespace then c else ' ')
    let parts := (splitChars
      (fun c => c = ',' || c = ';' || c = '+' || c = '&' || c.isWhitespace) cleaned).map
      (fun cs => (⟨trimChars cs⟩ : String))
    (parts.filter (fun t => 2 ≤ t.length)).foldl
      (fun acc t => if acc.any (fun x => x = t) then acc else acc ++ [t]) []

/-- Strip the leading `c\s*\(` wrapper (R list literal) from an already
lowercased character list. -/
def stripCParen (cs : List Char) : List Char :=
  match cs with
  | 'c' :: rest =>
    (match rest.dropWhile Char.isWhitespace with
     | '(' :: rest2 => rest2
     | _ => cs)
  | _ => cs

/-- Strip one trailing `)` (regex `\)$`). -/
def stripTrailingParen (cs : List Char) : List Char :=
  match cs.getLast? with
  | some c => if c = ')' then cs.dropLast else cs
  | none => cs

/-- `preprocessRecipeIngredients(ingredients)` (recipe-search.js
lines 180–197): lowercase, strip the `c( ... )` wrapper and quotes, replace
characters outside `[\w\sÀ-ɏḀ-ỿ,]` by spaces, split on
`[,;]+`, trim, keep tokens longer than 1 character. -/
def preprocessRecipeIngredients (ingredients : String) : List String :=
  if ingredients = "" then []
  else
    let cs0 := (jsToLower ingredients).data
    let cs1 := stripTrailingParen (stripCParen cs0)
    let cs2 := cs1.filter (fun c => !(c = '"' || c = '\''))
    let cs3 := cs2.map
      (fun c => if isSearchWordChar c || c.isWhitespace || c = ',' then c else ' ')
    ((splitChars (fun c => c = ',' || c = ';') cs3).map
      (fun cs => (⟨trimChars cs⟩ : String))).filter (fun t => 2 ≤ t.length)

/-- Intermediate result of `calculateMatchScore`. -/
structure MatchParts where
  totalScore : ℚ
  exactMatches : Nat
  partMatches : Nat
  relevanceScore : ℚ
deriving Repr, DecidableEq

/-- One ingredient of the inner loop of `calculateMatchScore`: state is
`(exactMatches, partialMatches, relevanceScore, termMatched)`.  An exact
ingredient equality always scores `+10` (the source does not guard that
branch with `termMatched`); partial and fuzzy matches score only once per
search term. -/
def termIngredientStep (searchTerm : String) (st : Nat × Nat × ℚ × Bool)
    (ingredient : String) : Nat × Nat × ℚ × Bool :=
  let (exact, partM, rel, termMatched) := st
  if ingredient = searchTerm then (exact + 1, partM, rel + 10, true)
  else if strIncludes ingredient searchTerm || strIncludes searchTerm ingredient then
    (if termMatched then st else (exact, partM + 1, rel + 5, true))
  else
    let similarity := calculateStringSimilarity ingredient searchTerm
    if 7 / 10 < similarity ∧ ¬termMatched then
      (exact, partM + 1, rel + (jsRound (similarity * 3) : ℚ), true)
    else st

/-- `calculateMatchScore(recipe, searchTerms)` (recipe-search.js
lines 114–172).  The name-substring bonus (`+2`) applies only when no
ingredient matched the term; the final score adds the coverage bonus
`Math.round((exactMatches + partialMatches) / searchTerms.length * 5)`.
Callers guarantee `searchTerms` is non-empty. -/
def calculateMatchScore (recipe : Recipe) (searchTerms : List String) : MatchParts :=
  if recipe.ingredients = "" then ⟨0, 0, 0, 0⟩
  else
    let recipeIngredients := preprocessRecipeIngredients recipe.ingredients
    let res := searchTerms.foldl (fun (acc : Nat × Nat × ℚ) searchTerm =>
      let st := recipeIngredients.foldl (termIngredientStep searchTerm)
        (acc.1, acc.2.1, acc.2.2, false)
      if ¬st.2.2.2 ∧ recipe.name ≠ "" ∧
          strIncludes (jsToLower recipe.name) searchTerm = true then
        (st.1, st.2.1 + 1, st.2.2.1 + 2)
      else (st.1, st.2.1, st.2.2.1)) (0, 0, 0)
    let coverageBonus : ℚ :=
      (jsRound (((res.1 : ℚ) + (res.2.1 : ℚ)) / (searchTerms.length : ℚ) * 5) : ℚ)
    ⟨res.2.2 + coverageBonus, res.1, res.2.1, res.2.2⟩

/-- A scored candidate of `findMatchingRecipes`. -/
structure MatchResult where
  recipe : Recipe
  matchScore : ℚ
  exactMatches : Nat
  partMatches : Nat
  relevanceScore : ℚ
deriving Repr, DecidableEq

/-- `findMatchingRecipes(recipes, searchTerms)` (recipe-search.js
lines 87–105): keeps exactly the recipes with a positive total match
score, in catalog order. -/
def findMatchingRecipes (recipes : List Recipe) (searchTerms : List String) :
    List MatchResult :=
  recipes.foldl (fun acc recipe =>
    let ms := calculateMatchScore recipe searchTerms
    if 0 < ms.totalScore then
      acc ++ [⟨recipe, ms.totalScore, ms.exactMatches, ms.partMatches, ms.relevanceScore⟩]
    else acc) []

/-- Insertion of one element for the comparator-based sort model. -/
def orderedInsert (le : α → α → Bool) (a : α) : List α → List α
  | [] => [a]
  | b :: l => if le a b then a :: b :: l else b :: orderedInsert le a l

/-- Stable comparator-based sort modelling JavaScript `Array.prototype.sort`
(specified as a stable sort since ES2019). -/
def insertionSortBy (le : α → α → Bool) : List α → List α
  | [] => []
  | a :: l => orderedInsert le a (insertionSortBy le l)

/-- Comparator of `sortByRelevance` (recipe-search.js lines 245–260). -/
def relevanceCmp (a b : MatchResult) : ℚ :=
  if b.matchScore ≠ a.matchScore then b.matchScore - a.matchScore
  else if b.exactMatches ≠ a.exactMatches then (b.exactMatches : ℚ) - (a.exactMatches : ℚ)
  else (b.partMatches : ℚ) - (a.partMatches : ℚ)

/-- Combined 70/30 score of `sortByRelevanceAndSustainability`. -/
def combinedScore (a : MatchResult) : ℚ :=
  a.matchScore * (7 / 10) + (jsOrNum a.recipe.sustainability_index 50) * (3 / 10)

/-- Comparator of `sortByRelevanceAndSustainability` (recipe-search.js
lines 268–289), group B. -/
def relevanceSustainabilityCmp (a b : MatchResult) : ℚ :=
  if 1 < |combinedScore b - combinedScore a| then combinedScore b - combinedScore a
  else
    let sustainA := jsOrNum a.recipe.sustainability_index 50
    let sustainB := jsOrNum b.recipe.sustainability_index 50
    if 5 < |sustainB - sustainA| then sustainB - sustainA
    else b.matchScore - a.matchScore

/-- Comparator of `sortBySustainabilityPriority` (recipe-search.js
lines 297–317), group C. -/
def sustainabilityPriorityCmp (a b : MatchResult) : ℚ :=
  let sustainA := jsOrNum a.recipe.sustainability_index 50
  let sustainB := jsOrNum b.recipe.sustainability_index 50
  if 3 < |sustainB - sustainA| then sustainB - sustainA
  else if 2 < |b.matchScore - a.matchScore| then b.matchScore - a.matchScore
  else (jsOrNum a.recipe.env_score 50) - (jsOrNum b.recipe.env_score 50)

/-- `applySortingStrategy(matchResults, testGroup)` (recipe-search.js
lines 206–237): group A shuffles, groups B/C sort by their comparators,
any other group sorts by relevance; finally only the recipe objects are
returned. -/
def applySortingStrategy (matchResults : List MatchResult) (testGroup : String)
    (rnd : Nat → Nat) : List Recipe :=
  let sortedResults :=
    if testGroup = "A" then shuffleArray matchResults rnd
    else if testGroup = "B" then
      insertionSortBy (fun a b => decide (relevanceSustainabilityCmp a b ≤ 0)) matchResults
    else if testGroup = "C" then
      insertionSortBy (fun a b => decide (sustainabilityPriorityCmp a b ≤ 0)) matchResults
    else insertionSortBy (fun a b => decide (relevanceCmp a b ≤ 0)) matchResults
  sortedResults.map (fun result => result.recipe)

/-- `searchRecipes(recipes, ingredientsQuery, testGroup)` (recipe-search.js
lines 18–54): empty result on an empty catalog, an empty query or a query
with no valid search term; otherwise match, sort by group strategy and cut
to `CONFIG.SEARCH?.MAX_RESULTS || 10 = 6` results. -/
def searchRecipes (recipes : List Recipe) (ingredientsQuery : String)
    (testGroup : String) (rnd : Nat → Nat) : List Recipe :=
  if recipes.isEmpty ∨ ingredientsQuery = "" then []
  else
    let searchTerms := preprocessSearchQuery ingredientsQuery
    if searchTerms.isEmpty then []
    else
      let matchResults := findMatchingRecipes recipes searchTerms
      let sortedResults := applySortingStrategy matchResults testGroup rnd
      sortedResults.take MAX_RESULTS

/-! ### recipe-search.js, second copy (lines 615–812): the broadening
search with top-sustainable padding -/

/-- Search-term extraction of the second `searchRecipes` copy
(recipe-search.js lines 642–644): lowercase, split on `[,\s]+`, keep terms
of length at least 2. -/
def searchTermsFallback (query : String) : List String :=
  ((splitChars (fun c => c = ',' || c.isWhitespace) (jsToLower query).data).map
    (fun cs => (⟨cs⟩ : String))).filter (fun term => 2 ≤ term.length)

/-- Broadened candidate test of the second `findMatchingRecipes` copy:
some search term is a prefix (`word.startsWith(term)`) of some word of the
ingredient text. -/
def prefixBroadenMatch (searchTerms : List String) (r : Recipe) : Bool :=
  let words := splitChars (fun c => c = ',' || c.isWhitespace) (jsToLower r.ingredients).data
  searchTerms.any (fun term => words.any (fun word => term.data.isPrefixOf word))

/-- Descending order on `sustainability_index || 0` used for the
top-sustainable padding. -/
def topSustainableLe (a b : Recipe) : Bool :=
  decide (jsOrNum b.sustainability_index 0 ≤ jsOrNum a.sustainability_index 0)

/-- Stages 1–2 of `findMatchingRecipes` of the second copy
(recipe-search.js lines 679–706): substring matches, then — below 4
candidates — up to 5 prefix-broadened matches appended. -/
def fallbackBroadened (recipes : List Recipe) (searchTerms : List String) : List Recipe :=
  let exact1 := recipes.filter
    (fun r => searchTerms.any (fun term => strIncludes (jsToLower r.ingredients) term))
  if exact1.length < 4 ∧ 0 < searchTerms.length then
    exact1 ++ (recipes.filter (fun r =>
      !(exact1.any (fun e => e.recipeid = r.recipeid)) &&
        prefixBroadenMatch searchTerms r)).take 5
  else exact1

/-- `findMatchingRecipes(recipes, searchTerms)` of the second copy
(recipe-search.js lines 679–720): the broadened candidates, then — below 5
candidates — padding with the globally highest-sustainability recipes not
already included. -/
def findMatchingRecipesFallback (recipes : List Recipe) (searchTerms : List String) :
    List Recipe :=
  let exact2 := fallbackBroadened recipes searchTerms
  if exact2.length < 5 ∧ INCLUDE_TOP_SUSTAINABLE = true then
    exact2 ++ (insertionSortBy topSustainableLe
      (recipes.filter (fun r => !(exact2.any (fun e => e.recipeid = r.recipeid))))).take
      (5 - exact2.length)
  else exact2

/-- Truthiness of `recipe.aggregated_rating` (`recipes.some(r => r.aggregated_rating)`). -/
def ratingTruthy (r : Recipe) : Bool := decide (jsOrNum r.aggregated_rating 0 ≠ 0)

/-- One iteration of the interleaving loop of `balancedSorting`: even
indices prefer the sustainability ranking (when the slot exists), odd
indices and missing sustainability slots fall through to the popularity
ranking; duplicates by `recipeid` are skipped. -/
def balancedStep (sR pR : List Recipe) (result : List Recipe) (i : Nat) : List Recipe :=
  let sourceIndex := i / 2
  if i % 2 = 0 ∧ sourceIndex < sR.length then
    match sR[sourceIndex]? with
    | some r =>
      if result.any (fun x => x.recipeid = r.recipeid) then result else result ++ [r]
    | none => result
  else
    match pR[sourceIndex]? with
    | some r =>
      if result.any (fun x => x.recipeid = r.recipeid) then result else result ++ [r]
    | none => result

/-- The `sustainabilityRanked` copy of `balancedSorting`: descending by
`sustainability_index || 0`. -/
def sustainabilityRankedOf (recipes : List Recipe) : List Recipe :=
  insertionSortBy
    (fun a b => decide (jsOrNum b.sustainability_index 0 ≤ jsOrNum a.sustainability_index 0))
    recipes

/-- The `popularityRanked` copy of `balancedSorting`: descending by
`aggregated_rating || 0`, re-sorted in place by `meal_score || 0` when no
recipe carries a truthy `aggregated_rating`. -/
def popularityRankedOf (recipes : List Recipe) : List Recipe :=
  let popularityRanked0 := insertionSortBy
    (fun a b => decide (jsOrNum b.aggregated_rating 0 ≤ jsOrNum a.aggregated_rating 0))
    recipes
  if recipes.any ratingTruthy then popularityRanked0
  else insertionSortBy
    (fun a b => decide (jsOrNum b.meal_score 0 ≤ jsOrNum a.meal_score 0))
    popularityRanked0

/-- `balancedSorting(recipes)` (recipe-search.js lines 753–788): ranks by
sustainability and by popularity, interleaves the two rankings skipping
duplicates, and cuts to `MAX_RESULTS`. -/
def balancedSorting (recipes : List Recipe) : List Recipe :=
  let maxResults := min (MAX_RESULTS * 2) recipes.length
  ((List.range maxResults).foldl
    (balancedStep (sustainabilityRankedOf recipes) (popularityRankedOf recipes)) []).take
    MAX_RESULTS

/-- `applySortingStrategy(recipes, testGroup)` of the second copy
(recipe-search.js lines 729–745): group A shuffles a copy, groups B and C
use `balancedSorting`, any other group keeps the order. -/
def applySortingStrategyFallback (recipes : List Recipe) (testGroup : String)
    (rnd : Nat → Nat) : List Recipe :=
  if testGroup = "A" then shuffleArray recipes rnd
  else if testGroup = "B" ∨ testGroup = "C" then balancedSorting recipes
  else recipes

/-- `searchRecipes(recipes, ingredientsQuery, testGroup)` of the second
copy (recipe-search.js lines 632–670). -/
def searchRecipesFallback (recipes : List Recipe) (ingredientsQuery : String)
    (testGroup : String) (rnd : Nat → Nat) : List Recipe :=
  if recipes.isEmpty ∨ ingredientsQuery = "" then []
  else
    let searchTerms := searchTermsFallback ingredientsQuery
    if searchTerms.isEmpty then []
    else
      let matchResults := findMatchingRecipesFallback recipes searchTerms
      (applySortingStrategyFallback matchResults testGroup rnd).take MAX_RESULTS

/-! ### Recipe preparation (user-manager.js, data-loader copy) -/

/-- `determineCategory(recipe)` (sustainability.js, first copy,
lines 187–221): keyword chain over the ingredient text. -/
def determineCategoryLegacy (recipe : Recipe) : String :=
  if recipe.ingredients = "" then "egyéb"
  else
    let ingredients := jsToLower recipe.ingredients
    if strIncludes ingredients "hús" || strIncludes ingredients "csirke" ||
        strIncludes ingredients "sertés" || strIncludes ingredients "marha" then "főétel"
    else if strIncludes ingredients "leves" || strIncludes ingredients "húsleves" then "leves"
    else if strIncludes ingredients "saláta" || strIncludes ingredients "uborka" then "saláta"
    else if strIncludes ingredients "cukor" || strIncludes ingredients "csokoládé" ||
        strIncludes ingredients "torta" || strIncludes ingredients "sütemény" then "desszert"
    else if strIncludes ingredients "tej" || strIncludes ingredients "ital" ||
        strIncludes ingredients "smoothie" then "ital"
    else "egyéb"

/-- `CONFIG.CATEGORY_ICONS` (config.js, first copy). -/
def CATEGORY_ICONS : List (String × String) :=
  [("saláta", "🥗"), ("leves", "🍲"), ("főétel", "🍽️"), ("desszert", "🍰"),
   ("ital", "🥤"), ("reggeli", "🍳"), ("köret", "🥔"), ("egyéb", "🍴")]

/-- `getCategoryIcon(category)`: table lookup with the `egyéb` icon as
fallback. -/
def getCategoryIcon (category : String) : String :=
  match CATEGORY_ICONS.lookup category with
  | some icon => icon
  | none => "🍴"

/-- Per-recipe preparation body of `prepareRecipes` (user-manager.js,
data-loader copy, lines 284–307), applied to the recipes that survive the
zero-score filter: recompute `sustainability_index`, default the category,
the category icon, the name and the ingredient text.  The recomputed index
is modelled with the legacy composite scorer
(`calculateSustainabilityScoreLegacy`). -/
def prepareRecipeEntry (index : Nat) (recipe : Recipe) : Recipe :=
  let calculated := calculateSustainabilityScoreLegacy recipe
  let r1 : Recipe := { recipe with sustainability_index := some calculated }
  let r2 : Recipe :=
    if r1.category = "" then { r1 with category := determineCategoryLegacy r1 } else r1
  let r3 : Recipe :=
    if r2.categoryIcon = "" then { r2 with categoryIcon := getCategoryIcon r2.category }
    else r2
  let r4 : Recipe :=
    if r3.name = "" then
      { r3 with name := "Recept #" ++
          toString (if r3.recipeid = 0 then (index : Int) + 1 else r3.recipeid) }
    else r3
  if r4.ingredients = "" then { r4 with ingredients := "Ismeretlen hozzávalók" } else r4

/-- One `forEach` iteration of `prepareRecipes`: a recipe is skipped
whenever `env_score || 0` or `nutri_score || 0` is `≤ 0`, otherwise its
prepared form is pushed. -/
def prepareStep (filtered : List Recipe) (p : Nat × Recipe) : List Recipe :=
  let envScore := jsOrNum p.2.env_score 0
  let nutriScore := jsOrNum p.2.nutri_score 0
  if envScore ≤ 0 ∨ nutriScore ≤ 0 then filtered
  else filtered ++ [prepareRecipeEntry p.1 p.2]

/-- `prepareRecipes(recipes)` (user-manager.js, data-loader copy,
lines 264–336). -/
def prepareRecipes (recipes : List Recipe) : List Recipe :=
  recipes.enum.foldl prepareStep []

/-- A recipe survives the preparation filter exactly when both scores are
positive after the `|| 0` defaulting. -/
def keptRecipe (r : Recipe) : Bool :=
  decide (0 < jsOrNum r.env_score 0) && decide (0 < jsOrNum r.nutri_score 0)

end GreenRec

unseal Rat.add Rat.mul Rat.inv Rat.sub Rat.ofScientific

namespace GreenRec

/-! ### Bounds of the clamped, tenth-rounded score -/

lemma clamp_nonneg (x : ℚ) : 0 ≤ max 0 (min 100 x) := le_max_left _ _

lemma clamp_le_100 (x : ℚ) : max 0 (min 100 x) ≤ 100 :=
  max_le (by norm_num) (min_le_left _ _)

lemma clamp_idem (x : ℚ) :
    max 0 (min 100 (max 0 (min 100 x))) = max 0 (min 100 x) := by
  rw [min_eq_right (clamp_le_100 x), max_eq_right (clamp_nonneg x)]

lemma clamp_mono {x y : ℚ} (h : x ≤ y) :
    max 0 (min 100 x) ≤ max 0 (min 100 y) :=
  max_le_max le_rfl (min_le_min le_rfl h)

lemma roundTenth_nonneg {x : ℚ} (h : 0 ≤ x) :
    0 ≤ ((jsRound (x * 10) : ℚ)) / 10 := by
  have h1 : (0 : ℤ) ≤ jsRound (x * 10) := by
    unfold jsRound
    exact Int.le_floor.mpr (by push_cast; nlinarith)
  have h2 : (0 : ℚ) ≤ (jsRound (x * 10) : ℚ) := by exact_mod_cast h1
  exact div_nonneg h2 (by norm_num)

lemma roundTenth_le_100 {x : ℚ} (h : x ≤ 100) :
    ((jsRound (x * 10) : ℚ)) / 10 ≤ 100 := by
  have h1 : jsRound (x * 10) ≤ 1000 := by
    unfold jsRound
    have : ⌊x * 10 + 1 / 2⌋ ≤ ⌊(2001 : ℚ) / 2⌋ := Int.floor_le_floor (by nlinarith)
    simpa using this.trans_eq (by decide)
  have h2 : ((jsRound (x * 10) : ℚ)) ≤ 1000 := by exact_mod_cast h1
  linarith

lemma roundTenth_mono {x y : ℚ} (h : x ≤ y) :
    ((jsRound (x * 10) : ℚ)) / 10 ≤ ((jsRound (y * 10) : ℚ)) / 10 := by
  have h1 : jsRound (x * 10) ≤ jsRound (y * 10) := by
    unfold jsRound
    exact Int.floor_le_floor (by linarith)
  have h2 : ((jsRound (x * 10) : ℚ)) ≤ ((jsRound (y * 10) : ℚ)) := by exact_mod_cast h1
  linarith

/-- **C1**: for every finite numeric `env` and `nutri` and every category,
`calculateSustainabilityScore` stays in `[0, 100]`, and out-of-range
inputs are clamped to `[0, 100]` before the weighted computation (the
score of the raw inputs equals the score of the clamped inputs); the
legacy per-recipe scorer also always stays in `[0, 100]`. -/
theorem claim1_score_bounded (env nutri : ℚ) (category : String) (recipe : Recipe) :
    0 ≤ calculateSustainabilityScore env nutri category ∧
    calculateSustainabilityScore env nutri category ≤ 100 ∧
    calculateSustainabilityScore env nutri category =
      calculateSustainabilityScore (max 0 (min 100 env)) (max 0 (min 100 nutri)) category ∧
    0 ≤ calculateSustainabilityScoreLegacy recipe ∧
    calculateSustainabilityScoreLegacy recipe ≤ 100 := by
  refine ⟨?_, ?_, ?_, ?_, ?_⟩
  · simp only [calculateSustainabilityScore]
    exact roundTenth_nonneg (clamp_nonneg _)
  · simp only [calculateSustainabilityScore]
    exact roundTenth_le_100 (clamp_le_100 _)
  · simp only [calculateSustainabilityScore]
    rw [clamp_idem, clamp_idem]
  · simp only [calculateSustainabilityScoreLegacy]
    split
    · exact le_refl 0
    · exact clamp_nonneg _
  · simp only [calculateSustainabilityScoreLegacy]
    split
    · norm_num
    · exact clamp_le_100 _

/-- **C3**: the example scenario — `env = 25.5`, `nutri = 78.2`,
category `leves` (soup, modifier `+3`, weights `0.6 / 0.4`) scores
exactly `79.0`. -/
theorem claim3_example_score :
    calculateSustainabilityScore 25.5 78.2 "leves" = 79 := by decide

/-- **C4**: the sustainability score is antitone in `env` and monotone in
`nutri` for every fixed remaining input. -/
theorem claim4_score_monotone (env1 env2 nutri1 nutri2 env nutri : ℚ) (category : String) :
    (env1 ≤ env2 →
      calculateSustainabilityScore env2 nutri category ≤
        calculateSustainabilityScore env1 nutri category) ∧
    (nutri1 ≤ nutri2 →
      calculateSustainabilityScore env nutri1 category ≤
        calculateSustainabilityScore env nutri2 category) := by
  constructor
  · intro h
    simp only [calculateSustainabilityScore]
    apply roundTenth_mono
    apply clamp_mono
    have hc : max 0 (min 100 env1) ≤ max 0 (min 100 env2) := clamp_mono h
    have hw : (100 - max 0 (min 100 env2)) * ENVIRONMENT_WEIGHT ≤
        (100 - max 0 (min 100 env1)) * ENVIRONMENT_WEIGHT := by
      unfold ENVIRONMENT_WEIGHT
      nlinarith
    linarith
  · intro h
    simp only [calculateSustainabilityScore]
    apply roundTenth_mono
    apply clamp_mono
    have hc : max 0 (min 100 nutri1) ≤ max 0 (min 100 nutri2) := clamp_mono h
    have hw : max 0 (min 100 nutri1) * NUTRITION_WEIGHT ≤
        max 0 (min 100 nutri2) * NUTRITION_WEIGHT := by
      unfold NUTRITION_WEIGHT
      nlinarith
    linarith

/-- Witness for C4 at concrete inputs. -/
theorem claim4_score_monotone_witness :
    calculateSustainabilityScore 40 70 "leves" ≤ calculateSustainabilityScore 20 70 "leves" ∧
    calculateSustainabilityScore 30 50 "leves" ≤ calculateSustainabilityScore 30 80 "leves" :=
  ⟨(claim4_score_monotone 20 40 50 80 30 70 "leves").1 (by norm_num),
   (claim4_score_monotone 20 40 50 80 30 70 "leves").2 (by norm_num)⟩

/-! ### The score evaluator -/

lemma evaluate_cases (score : ℚ) :
    evaluateSustainabilityScore score =
      (if 75 ≤ score then (⟨"Kiváló fenntartható választás", "🌟"⟩ : Evaluation)
       else if 60 ≤ score then ⟨"Jó fenntartható választás", "✅"⟩
       else if 40 ≤ score then ⟨"Közepes fenntarthatóságú választás", "⚖️"⟩
       else ⟨"Kevésbé fenntartható választás", "⚠️"⟩) := by
  simp only [evaluateSustainabilityScore, ECO_SCORE_RANGES, List.find?]
  by_cases h75 : (75 : ℚ) ≤ score <;> by_cases h60 : (60 : ℚ) ≤ score <;>
    by_cases h40 : (40 : ℚ) ≤ score <;> by_cases h0 : (0 : ℚ) ≤ score <;>
    simp [h75, h60, h40, h0, List.getLastD]

/-- **C6**: the score evaluator is total: for every finite numeric score it
returns a label/icon pair drawn from the range table, scores below the
table fall back to the lowest band and scores above the table land in the
highest band. -/
theorem claim6_evaluator_total (score : ℚ) :
    (∃ range ∈ ECO_SCORE_RANGES,
       evaluateSustainabilityScore score = ⟨range.label, range.icon⟩) ∧
    (score < 0 → evaluateSustainabilityScore score =
       ⟨"Kevésbé fenntartható választás", "⚠️"⟩) ∧
    (100 < score → evaluateSustainabilityScore score =
       ⟨"Kiváló fenntartható választás", "🌟"⟩) := by
  rw [evaluate_cases]
  refine ⟨?_, ?_, ?_⟩
  · split_ifs <;> simp [ECO_SCORE_RANGES]
  · intro h
    split_ifs with h1 h2 h3 <;> first | rfl | linarith
  · intro h
    split_ifs with h1 <;> first | rfl | linarith

/-- Witness for C6 at the out-of-table inputs `-5` and `150`. -/
theorem claim6_evaluator_total_witness :
    evaluateSustainabilityScore (-5) = ⟨"Kevésbé fenntartható választás", "⚠️"⟩ ∧
    evaluateSustainabilityScore 150 = ⟨"Kiváló fenntartható választás", "🌟"⟩ :=
  ⟨(claim6_evaluator_total (-5)).2.1 (by norm_num),
   (claim6_evaluator_total 150).2.2 (by norm_num)⟩

/-! ### Recipe preparation -/

lemma prepareRecipeEntry_recipeid (index : Nat) (r : Recipe) :
    (prepareRecipeEntry index r).recipeid = r.recipeid := by
  simp [prepareRecipeEntry, apply_ite Recipe.recipeid]

lemma prepare_aux (recipes : List Recipe) :
    ∀ (n : Nat) (acc : List Recipe),
      ((List.enumFrom n recipes).foldl prepareStep acc).map Recipe.recipeid =
        acc.map Recipe.recipeid ++ (recipes.filter keptRecipe).map Recipe.recipeid := by
  induction recipes with
  | nil => intro n acc; simp [List.enumFrom]
  | cons r rest ih =>
    intro n acc
    simp only [List.enumFrom, List.foldl_cons, List.filter]
    by_cases h : jsOrNum r.env_score 0 ≤ 0 ∨ jsOrNum r.nutri_score 0 ≤ 0
    · have hk : keptRecipe r = false := by
        simp only [keptRecipe, Bool.and_eq_false_iff, decide_eq_false_iff_not, not_lt]
        rcases h with h | h
        · exact Or.inl h
        · exact Or.inr h
      rw [hk]
      have hs : prepareStep acc (n, r) = acc := by simp [prepareStep, h]
      rw [hs, ih (n + 1) acc]
    · have hk : keptRecipe r = true := by
        push_neg at h
        simp only [keptRecipe, Bool.and_eq_true, decide_eq_true_eq]
        exact ⟨h.1, h.2⟩
      rw [hk]
      have hs : prepareStep acc (n, r) = acc ++ [prepareRecipeEntry n r] := by
        simp [prepareStep, h]
      rw [hs, ih (n + 1) (acc ++ [prepareRecipeEntry n r])]
      simp [prepareRecipeEntry_recipeid]

/-- **C2** (amended): at recipe preparation a recipe is dropped as soon as
EITHER of `env_score`/`nutri_score` is missing or `≤ 0`; the usable
catalog keeps exactly the recipes whose two scores are both positive. -/
theorem claim2_prepare_keeps_iff_both_positive (recipes : List Recipe) :
    (prepareRecipes recipes).map Recipe.recipeid =
      (recipes.filter keptRecipe).map Recipe.recipeid := by
  have h := prepare_aux recipes 0 []
  simpa [prepareRecipes, List.enum] using h

/-- **C2** (counterexample): a recipe whose `env_score` is a positive 50
but whose `nutri_score` is missing is excluded by `prepareRecipes`,
contradicting the claim that a recipe with exactly one missing score is
kept with the missing value treated as 0. -/
theorem claim2_counterexample :
    (0 : ℚ) < jsOrNum (⟨1, "Zöldségleves", "zöldség", "leves", some 50, none,
        none, none, none, ""⟩ : Recipe).env_score 0 ∧
    prepareRecipes [⟨1, "Zöldségleves", "zöldség", "leves", some 50, none,
        none, none, none, ""⟩] = [] := by decide

/-! ### Permutation lemmas for the shuffle and the sorting strategies -/

lemma set_cons_perm : ∀ (l : List α) (n : Nat) (a b : α), l[n]? = some b →
    (b :: l.set n a).Perm (a :: l) := by
  intro l
  induction l with
  | nil => intro n a b h; simp at h
  | cons x t ih =>
    intro n a b h
    cases n with
    | zero =>
      obtain rfl : x = b := by simpa using h
      simpa using List.Perm.swap a x t
    | succ m =>
      have hm : t[m]? = some b := by simpa using h
      have step1 : (b :: x :: t.set m a).Perm (x :: b :: t.set m a) :=
        List.Perm.swap x b _
      have step2 : (x :: b :: t.set m a).Perm (x :: a :: t) :=
        List.Perm.cons x (ih m a b hm)
      have step3 : (x :: a :: t).Perm (a :: x :: t) := List.Perm.swap a x t
      simpa using (step1.trans step2).trans step3

lemma set_set_swap_perm : ∀ (l : List α) (i j : Nat) (a b : α),
    l[i]? = some a → l[j]? = some b → ((l.set i b).set j a).Perm l := by
  intro l
  induction l with
  | nil => intro i j a b hi _; simp at hi
  | cons x t ih =>
    intro i j a b hi hj
    cases i with
    | zero =>
      obtain rfl : x = a := by simpa using hi
      cases j with
      | zero =>
        obtain rfl : x = b := by simpa using hj
        simp
      | succ m =>
        have hm : t[m]? = some b := by simpa using hj
        simpa using set_cons_perm t m x b hm
    | succ m =>
      cases j with
      | zero =>
        obtain rfl : x = b := by simpa using hj
        have hm : t[m]? = some a := by simpa using hi
        simpa using set_cons_perm t m x a hm
      | succ k =>
        have hi2 : t[m]? = some a := by simpa using hi
        have hj2 : t[k]? = some b := by simpa using hj
        simpa using List.Perm.cons x (ih m k a b hi2 hj2)

lemma listSwap_perm (l : List α) (i j : Nat) : (listSwap l i j).Perm l := by
  rcases hi : l[i]? with _ | a
  · simp [listSwap, hi]
  · rcases hj : l[j]? with _ | b
    · simp [listSwap, hi, hj]
    · simpa [listSwap, hi, hj] using set_set_swap_perm l i j a b hi hj

lemma shuffleGo_perm (rnd : Nat → Nat) : ∀ (n : Nat) (l : List α),
    (shuffleGo rnd n l).Perm l := by
  intro n
  induction n with
  | zero => intro l; exact List.Perm.refl l
  | succ m ih =>
    intro l
    exact (ih _).trans (listSwap_perm l (m + 1) (rnd (m + 1) % (m + 2)))

lemma shuffleArray_perm (l : List α) (rnd : Nat → Nat) :
    (shuffleArray l rnd).Perm l := shuffleGo_perm rnd (l.length - 1) l

lemma orderedInsert_perm (le : α → α → Bool) (a : α) :
    ∀ (l : List α), (orderedInsert le a l).Perm (a :: l) := by
  intro l
  induction l with
  | nil => simp [orderedInsert]
  | cons b t ih =>
    simp only [orderedInsert]
    by_cases h : le a b
    · simp [h]
    · simp only [h]
      have h1 : (b :: orderedInsert le a t).Perm (b :: a :: t) := List.Perm.cons b ih
      have h2 : (b :: a :: t).Perm (a :: b :: t) := List.Perm.swap a b t
      simpa [h] using h1.trans h2

lemma insertionSortBy_perm (le : α → α → Bool) :
    ∀ (l : List α), (insertionSortBy le l).Perm l := by
  intro l
  induction l with
  | nil => exact List.Perm.refl []
  | cons a t ih =>
    have h1 := orderedInsert_perm le a (insertionSortBy le t)
    exact h1.trans (List.Perm.cons a ih)

lemma applySortingStrategy_perm (mr : List MatchResult) (g : String) (rnd : Nat → Nat) :
    (applySortingStrategy mr g rnd).Perm (mr.map MatchResult.recipe) := by
  unfold applySortingStrategy
  split_ifs with h1 h2 h3
  · exact (shuffleArray_perm mr rnd).map _
  · exact (insertionSortBy_perm _ mr).map _
  · exact (insertionSortBy_perm _ mr).map _
  · exact (insertionSortBy_perm _ mr).map _

/-- **C10**: for every input array and every random stream,
`shuffleArray` returns a permutation of the input: the multiset of
elements is unchanged.  The source copies the array (`[...array]`) before
swapping, so the input itself is never mutated; the embedding is pure by
construction. -/
theorem claim10_shuffle_is_permutation (array : List α) (rnd : Nat → Nat) :
    (shuffleArray array rnd).Perm array :=
  shuffleArray_perm array rnd

/-- **C9** (amended): the three group strategies of
`applySortingStrategy` only reorder the relevance-qualified candidate set:
for any two groups and any random streams, the multisets of recipe ids
they produce coincide.  The truncation to `MAX_RESULTS` performed
afterwards by `searchRecipes` can, however, change membership — see the
counterexample. -/
theorem claim9_ranking_preserves_membership (matchResults : List MatchResult)
    (g1 g2 : String) (rnd1 rnd2 : Nat → Nat) :
    ((applySortingStrategy matchResults g1 rnd1).map Recipe.recipeid).Perm
      ((applySortingStrategy matchResults g2 rnd2).map Recipe.recipeid) :=
  ((applySortingStrategy_perm matchResults g1 rnd1).map Recipe.recipeid).trans
    (((applySortingStrategy_perm matchResults g2 rnd2).map Recipe.recipeid).symm)

/-- **C9** (counterexample): with seven candidates that all match the
query, the group A search (shuffled, random stream constantly 0) and the
group B search return different id multisets after the cut to six
results. -/
theorem claim9_counterexample :
    ¬ ((searchRecipes
        [⟨1, "", "aa", "", none, none, some 90, none, none, ""⟩,
         ⟨2, "", "aa", "", none, none, some 80, none, none, ""⟩,
         ⟨3, "", "aa", "", none, none, some 70, none, none, ""⟩,
         ⟨4, "", "aa", "", none, none, some 60, none, none, ""⟩,
         ⟨5, "", "aa", "", none, none, some 50, none, none, ""⟩,
         ⟨6, "", "aa", "", none, none, some 40, none, none, ""⟩,
         ⟨7, "", "aa", "", none, none, some 30, none, none, ""⟩] "aa" "A"
        (fun _ => 0)).map Recipe.recipeid).Perm
      ((searchRecipes
        [⟨1, "", "aa", "", none, none, some 90, none, none, ""⟩,
         ⟨2, "", "aa", "", none, none, some 80, none, none, ""⟩,
         ⟨3, "", "aa", "", none, none, some 70, none, none, ""⟩,
         ⟨4, "", "aa", "", none, none, some 60, none, none, ""⟩,
         ⟨5, "", "aa", "", none, none, some 50, none, none, ""⟩,
         ⟨6, "", "aa", "", none, none, some 40, none, none, ""⟩,
         ⟨7, "", "aa", "", none, none, some 30, none, none, ""⟩] "aa" "B"
        (fun _ => 0)).map Recipe.recipeid) := by decide

/-- **C7**: the search entry point returns an empty array when the
catalog is empty, when the query is missing, or when the query yields no
valid search term, and every returned array is bounded by
`CONFIG.SEARCH.MAX_RESULTS`; the embedding is total, so no input can make
it throw. -/
theorem claim7_search_never_throws (recipes : List Recipe) (query group : String)
    (rnd : Nat → Nat) :
    (recipes = [] → searchRecipes recipes query group rnd = []) ∧
    (query = "" → searchRecipes recipes query group rnd = []) ∧
    (preprocessSearchQuery query = [] → searchRecipes recipes query group rnd = []) ∧
    (searchRecipes recipes query group rnd).length ≤ MAX_RESULTS := by
  refine ⟨?_, ?_, ?_, ?_⟩
  · intro h; simp [searchRecipes, h]
  · intro h; simp [searchRecipes, h]
  · intro h; simp [searchRecipes, h]
  · simp only [searchRecipes]
    split_ifs <;> simp [MAX_RESULTS, List.length_take]

/-- Witness for C7 at concrete inputs: empty catalog, empty query, a
query with no 2-character term, and a bounded non-trivial search. -/
theorem claim7_search_never_throws_witness :
    searchRecipes [] "marha" "A" (fun _ => 0) = [] ∧
    searchRecipes [⟨1, "", "aa", "", none, none, none, none, none, ""⟩] "" "B"
      (fun _ => 0) = [] ∧
    searchRecipes [⟨1, "", "aa", "", none, none, none, none, none, ""⟩] "!" "C"
      (fun _ => 0) = [] ∧
    (searchRecipes [⟨1, "", "aa", "", none, none, none, none, none, ""⟩] "aa" "A"
      (fun _ => 0)).length ≤ MAX_RESULTS :=
  ⟨(claim7_search_never_throws [] "marha" "A" (fun _ => 0)).1 rfl,
   (claim7_search_never_throws _ "" "B" (fun _ => 0)).2.1 rfl,
   (claim7_search_never_throws _ "!" "C" (fun _ => 0)).2.2.1 (by decide),
   (claim7_search_never_throws _ "aa" "A" (fun _ => 0)).2.2.2⟩

/-! ### The category classifier -/

lemma categoryStep_fst_le (text : String) (acc : Nat × String) (e : String × List String) :
    acc.1 ≤ (categoryStep text acc e).1 := by
  simp only [categoryStep]
  split_ifs with h
  · exact le_of_lt h
  · exact le_rfl

lemma categoryFold_acc_le (text : String) :
    ∀ (l : List (String × List String)) (acc : Nat × String),
      acc.1 ≤ (l.foldl (categoryStep text) acc).1 := by
  intro l
  induction l with
  | nil => intro acc; exact le_rfl
  | cons e t ih =>
    intro acc
    exact (categoryStep_fst_le text acc e).trans (ih (categoryStep text acc e))

lemma categoryFold_ge (text : String) :
    ∀ (l : List (String × List String)) (acc : Nat × String) (e : String × List String),
      e ∈ l → keywordScore text e.2 ≤ (l.foldl (categoryStep text) acc).1 := by
  intro l
  induction l with
  | nil => intro acc e he; simp at he
  | cons f t ih =>
    intro acc e he
    rcases List.mem_cons.mp he with rfl | he2
    · have h1 : keywordScore text e.2 ≤ (categoryStep text acc e).1 := by
        simp only [categoryStep]
        split_ifs with h
        · exact le_rfl
        · omega
      simpa using h1.trans (categoryFold_acc_le text t _)
    · exact ih _ e he2

lemma categoryFold_cases (text : String) :
    ∀ (l : List (String × List String)) (acc : Nat × String),
      l.foldl (categoryStep text) acc = acc ∨
      ∃ e ∈ l, (l.foldl (categoryStep text) acc).2 = e.1 ∧
        (l.foldl (categoryStep text) acc).1 = keywordScore text e.2 ∧
        acc.1 < (l.foldl (categoryStep text) acc).1 := by
  intro l
  induction l with
  | nil => intro acc; exact Or.inl rfl
  | cons f t ih =>
    intro acc
    simp only [List.foldl_cons]
    rcases ih (categoryStep text acc f) with h | ⟨e, he, h1, h2, h3⟩
    · rw [h]
      simp only [categoryStep]
      split_ifs with hlt
      · exact Or.inr ⟨f, List.mem_cons_self f t, rfl, rfl, hlt⟩
      · exact Or.inl rfl
    · refine Or.inr ⟨e, List.mem_cons_of_mem f he, h1, h2, ?_⟩
      exact lt_of_le_of_lt (categoryStep_fst_le text acc f) h3

lemma foldr_max_le {l : List Nat} {B : Nat} (h : ∀ x ∈ l, x ≤ B) : l.foldr max 0 ≤ B := by
  induction l with
  | nil => simp
  | cons x t ih =>
    simp only [List.foldr_cons]
    exact max_le (h x (List.mem_cons_self x t))
      (ih (fun y hy => h y (List.mem_cons_of_mem x hy)))

lemma le_foldr_max {l : List Nat} {x : Nat} (h : x ∈ l) : x ≤ l.foldr max 0 := by
  induction l with
  | nil => simp at h
  | cons y t ih =>
    simp only [List.foldr_cons]
    rcases List.mem_cons.mp h with rfl | h2
    · exact le_max_left _ _
    · exact (ih h2).trans (le_max_right _ _)

lemma categoryFold_fst_eq_max (text : String) :
    (categoryKeywords.foldl (categoryStep text) (0, "egyéb")).1 = maxKeywordScore text := by
  apply le_antisymm
  · rcases categoryFold_cases text categoryKeywords (0, "egyéb") with h | ⟨e, he, h1, h2, h3⟩
    · rw [h]; exact Nat.zero_le _
    · rw [h2]
      exact le_foldr_max (List.mem_map_of_mem _ he)
  · apply foldr_max_le
    intro x hx
    obtain ⟨e, he, rfl⟩ := List.mem_map.mp hx
    exact categoryFold_ge text categoryKeywords _ e he

/-- **C5**: the category classifier scores each category by the summed
lengths of its keywords occurring in the lowercased concatenated
ingredient-and-name text; the returned category always belongs to the
fixed enumerated set, is `egyéb` exactly when no keyword matches (or both
inputs are empty), and otherwise achieves the maximal keyword score.  The
classifier is a pure function, so identical input yields the identical
category by construction. -/
theorem claim5_classifier_argmax (ingredients name : String) :
    determineCategory ingredients name ∈ categorySet ∧
    ((ingredients = "" ∧ name = "" ∧ determineCategory ingredients name = "egyéb") ∨
     (¬(ingredients = "" ∧ name = "") ∧
      ((maxKeywordScore (jsToLower (ingredients ++ " " ++ name)) = 0 ∧
        determineCategory ingredients name = "egyéb") ∨
       (0 < maxKeywordScore (jsToLower (ingredients ++ " " ++ name)) ∧
        ∃ e ∈ categoryKeywords, determineCategory ingredients name = e.1 ∧
          keywordScore (jsToLower (ingredients ++ " " ++ name)) e.2 =
            maxKeywordScore (jsToLower (ingredients ++ " " ++ name)))))) := by
  by_cases hguard : ingredients = "" ∧ name = ""
  · constructor
    · simp [determineCategory, hguard, categorySet]
    · exact Or.inl ⟨hguard.1, hguard.2, by simp [determineCategory, hguard]⟩
  · have hdef : determineCategory ingredients name =
        (categoryKeywords.foldl (categoryStep (jsToLower (ingredients ++ " " ++ name)))
          (0, "egyéb")).2 := by
      simp [determineCategory, hguard]
    have hmax := categoryFold_fst_eq_max (jsToLower (ingredients ++ " " ++ name))
    have hfold := categoryFold_cases (jsToLower (ingredients ++ " " ++ name))
      categoryKeywords (0, "egyéb")
    constructor
    · rcases hfold with h | ⟨e, he, h1, h2, h3⟩
      · rw [hdef, h]; simp [categorySet]
      · rw [hdef, h1]
        have hall : ∀ f ∈ categoryKeywords, f.1 ∈ categorySet := by decide
        exact hall e he
    · refine Or.inr ⟨hguard, ?_⟩
      rcases hfold with h | ⟨e, he, h1, h2, h3⟩
      · refine Or.inl ⟨?_, by rw [hdef, h]⟩
        rw [← hmax, h]
      · refine Or.inr ⟨?_, e, he, by rw [hdef]; exact h1, by rw [← hmax, ← h2]⟩
        rw [← hmax]
        exact lt_of_le_of_lt (Nat.zero_le _) h3

/-! ### The fallback search is non-degenerate -/

lemma insertionSortBy_length (le : α → α → Bool) (l : List α) :
    (insertionSortBy le l).length = l.length :=
  (insertionSortBy_perm le l).length_eq

lemma take_ne_nil {n : Nat} {l : List α} (hn : n ≠ 0) (h : l ≠ []) : l.take n ≠ [] := by
  cases l with
  | nil => exact absurd rfl h
  | cons a t =>
    cases n with
    | zero => exact absurd rfl hn
    | succ m => simp

lemma balancedStep_len_le (sR pR : List Recipe) (acc : List Recipe) (i : Nat) :
    acc.length ≤ (balancedStep sR pR acc i).length := by
  simp only [balancedStep]
  split
  · cases hs : sR[i / 2]? with
    | none => exact le_rfl
    | some r =>
      show acc.length ≤ (if (acc.any fun x => decide (x.recipeid = r.recipeid)) = true
        then acc else acc ++ [r]).length
      split_ifs <;> simp
  · cases hp : pR[i / 2]? with
    | none => exact le_rfl
    | some r =>
      show acc.length ≤ (if (acc.any fun x => decide (x.recipeid = r.recipeid)) = true
        then acc else acc ++ [r]).length
      split_ifs <;> simp

lemma foldl_balancedStep_len (sR pR : List Recipe) :
    ∀ (is : List Nat) (acc : List Recipe),
      acc.length ≤ (is.foldl (balancedStep sR pR) acc).length := by
  intro is
  induction is with
  | nil => intro acc; exact le_rfl
  | cons i t ih =>
    intro acc
    exact (balancedStep_len_le sR pR acc i).trans (ih (balancedStep sR pR acc i))

lemma balancedSorting_ne_nil {recipes : List Recipe} (h : recipes ≠ []) :
    balancedSorting recipes ≠ [] := by
  obtain ⟨y, ys, hS⟩ : ∃ y ys, sustainabilityRankedOf recipes = y :: ys := by
    have hlen : (sustainabilityRankedOf recipes).length = recipes.length :=
      insertionSortBy_length _ recipes
    cases hsr : sustainabilityRankedOf recipes with
    | nil =>
      rw [hsr] at hlen
      cases recipes with
      | nil => exact absurd rfl h
      | cons r rs => simp at hlen
    | cons y ys => exact ⟨y, ys, rfl⟩
  simp only [balancedSorting]
  have hpos : 0 < min (MAX_RESULTS * 2) recipes.length := by
    cases recipes with
    | nil => exact absurd rfl h
    | cons r rs => simp [MAX_RESULTS]
  obtain ⟨k, hk⟩ := Nat.exists_eq_succ_of_ne_zero (Nat.pos_iff_ne_zero.mp hpos)
  rw [hk, List.range_succ_eq_map, List.foldl_cons]
  have hstep : balancedStep (sustainabilityRankedOf recipes) (popularityRankedOf recipes) [] 0
      = [y] := by
    simp [balancedStep, hS]
  rw [hstep]
  apply take_ne_nil (by norm_num [MAX_RESULTS])
  intro hc
  have hlen := foldl_balancedStep_len (sustainabilityRankedOf recipes)
    (popularityRankedOf recipes) ((List.range k).map Nat.succ) [y]
  rw [hc] at hlen
  simp at hlen

lemma applySortingStrategyFallback_ne_nil {l : List Recipe} (h : l ≠ [])
    (g : String) (rnd : Nat → Nat) : applySortingStrategyFallback l g rnd ≠ [] := by
  unfold applySortingStrategyFallback
  split_ifs with h1 h2
  · intro hc
    have hlen := (shuffleArray_perm l rnd).length_eq
    rw [hc] at hlen
    cases l with
    | nil => exact absurd rfl h
    | cons a t => simp at hlen
  · exact balancedSorting_ne_nil h
  · exact h

lemma findMatchingRecipesFallback_ne_nil {recipes : List Recipe} (searchTerms : List String)
    (h : recipes ≠ []) : findMatchingRecipesFallback recipes searchTerms ≠ [] := by
  simp only [findMatchingRecipesFallback]
  cases hE : fallbackBroadened recipes searchTerms with
  | cons x xs =>
    split_ifs <;> simp
  | nil =>
    rw [if_pos (by simp [INCLUDE_TOP_SUSTAINABLE])]
    simp only [List.any_nil, Bool.not_false, List.filter_true, List.nil_append,
      List.length_nil, Nat.sub_zero]
    apply take_ne_nil (by norm_num)
    intro hc
    have hlen := insertionSortBy_length topSustainableLe recipes
    rw [hc] at hlen
    cases recipes with
    | nil => exact absurd rfl h
    | cons r rs => simp at hlen

/-- **C8**: for every non-empty catalog and every query containing at
least one term of two or more characters, the fallback search returns a
non-empty result: below the minimum candidate threshold the candidate set
is broadened by prefix matching and then padded with the globally
highest-sustainability recipes, so at least one recipe always survives to
the final cut. -/
theorem claim8_fallback_search_nonempty (recipes : List Recipe) (query group : String)
    (rnd : Nat → Nat) (hcat : recipes ≠ []) (hterm : searchTermsFallback query ≠ []) :
    searchRecipesFallback recipes query group rnd ≠ [] := by
  have hq : query ≠ "" := by
    intro hq
    rw [hq] at hterm
    exact hterm (by decide)
  simp only [searchRecipesFallback]
  rw [if_neg (by simp [hcat, hq])]
  rw [if_neg (by simpa using hterm)]
  exact take_ne_nil (by norm_num [MAX_RESULTS])
    (applySortingStrategyFallback_ne_nil
      (findMatchingRecipesFallback_ne_nil _ hcat) group rnd)

/-- Witness for C8: a one-recipe catalog whose recipe does not match the
query "ab" still yields a non-empty result via the top-sustainable
padding. -/
theorem claim8_fallback_search_nonempty_witness :
    searchRecipesFallback
      [⟨1, "Teszt", "tofu", "", some 50, some 50, some 40, none, none, ""⟩]
      "ab" "B" (fun _ => 0) ≠ [] :=
  claim8_fallback_search_nonempty _ "ab" "B" (fun _ => 0) (by decide) (by decide)

end GreenRec
